import Mathlib

/-! Verification of the concurrency core of `file_server.c`
(jareddantis/cs140-file-server).

The development shallowly embeds the program:

* `QueueLock` with `ticket_draw` / `may_proceed` / `ticket_unlock` embeds the
  ticket lock (`queue_lock`, `ticket_lock`, `ticket_unlock`, lines 66-209);
* `TicketSys` / `TStep` is a small-step system of concurrent tasks using one
  ticket lock, for the FIFO ordering invariants;
* `Registry` / `enqueue_reg` embeds the open-files linked list manipulation
  of `enqueue` (lines 216-247), with lock identity as an allocation counter;
* `LockTable` / `dequeue` embeds `dequeue` (lines 254-274);
* `FS`, `write_file`, `read_file`, `empty_file`, `parseCmd`, `worker_thread`
  embed the command handlers and the worker (lines 292-572), with file
  contents as `List Char`, `fopen` fallibility as an `ok` oracle, and lock
  acquisition/release recorded as an event trace.
-/

namespace FileServer

/-- Ticket lock state: `curr` is the ticket now being served, `waiting` the
next ticket to hand out (`queue_lock`, lines 66-70). -/
structure QueueLock where
  curr : Nat
  waiting : Nat
deriving DecidableEq

/-- Initial ticket lock state (`ticket_init`, lines 170-175). -/
def ticket_init : QueueLock := ⟨0, 0⟩

/-- The atomic draw inside `ticket_lock` (line 188): `ticket = lock->waiting++`.
Returns the drawn ticket and the updated lock. -/
def ticket_draw (l : QueueLock) : Nat × QueueLock :=
  (l.waiting, { l with waiting := l.waiting + 1 })

/-- The wait-loop condition of `ticket_lock` (line 189): the caller may leave
the `while (ticket != lock->curr)` loop exactly when its ticket is served. -/
def may_proceed (l : QueueLock) (ticket : Nat) : Bool :=
  ticket == l.curr

/-- Embeds `ticket_unlock` (lines 203-209): `lock->curr++` then broadcast. -/
def ticket_unlock (l : QueueLock) : QueueLock :=
  { l with curr := l.curr + 1 }

/-- Phase of a task with respect to one ticket lock. -/
inductive TaskPhase where
  | idle : TaskPhase
  | waiting : Nat → TaskPhase
  | serving : Nat → TaskPhase
  | finished : Nat → TaskPhase
deriving DecidableEq

/-- The ticket a task currently holds, if any. -/
def ticketOf : TaskPhase → Option Nat
  | .idle => none
  | .waiting k => some k
  | .serving k => some k
  | .finished k => some k

/-- Global state of concurrent tasks contending on one ticket lock.
`granted` records, newest first, the tickets in the order their `ticket_lock`
calls returned (were granted exclusive use). -/
structure TicketSys where
  lock : QueueLock
  tasks : Nat → TaskPhase
  granted : List Nat

/-- Initial system state: freshly initialized lock, all tasks idle. -/
def tInit : TicketSys :=
  { lock := ticket_init, tasks := fun _ => .idle, granted := [] }

/-- Small-step semantics of concurrent `ticket_lock` / `ticket_unlock` calls:
a task atomically draws a ticket (line 188), leaves the wait loop when its
ticket is served (line 189), and releases via `ticket_unlock` (lines 203-208).
-/
inductive TStep : TicketSys → TicketSys → Prop where
  | draw (s : TicketSys) (i : Nat) (h : s.tasks i = .idle) :
      TStep s { lock := (ticket_draw s.lock).2,
                tasks := Function.update s.tasks i (.waiting (ticket_draw s.lock).1),
                granted := s.granted }
  | enter (s : TicketSys) (i k : Nat) (h : s.tasks i = .waiting k)
      (hc : may_proceed s.lock k = true) :
      TStep s { lock := s.lock,
                tasks := Function.update s.tasks i (.serving k),
                granted := k :: s.granted }
  | exit (s : TicketSys) (i k : Nat) (h : s.tasks i = .serving k) :
      TStep s { lock := ticket_unlock s.lock,
                tasks := Function.update s.tasks i (.finished k),
                granted := s.granted }

/-- States reachable from the initial system state. -/
def Reachable (s : TicketSys) : Prop :=
  Relation.ReflTransGen TStep tInit s

/-- Inductive invariant of the ticket-lock system. -/
structure Inv (s : TicketSys) : Prop where
  curr_le : s.lock.curr ≤ s.lock.waiting
  ticket_lt : ∀ i k, ticketOf (s.tasks i) = some k → k < s.lock.waiting
  inj : ∀ i j k, ticketOf (s.tasks i) = some k → ticketOf (s.tasks j) = some k → i = j
  serv_curr : ∀ i k, s.tasks i = .serving k → k = s.lock.curr
  fin_lt : ∀ i k, s.tasks i = .finished k → k < s.lock.curr
  wait_ge : ∀ i k, s.tasks i = .waiting k → s.lock.curr ≤ k
  sorted : List.Sorted (· > ·) s.granted
  owner : ∀ k, k ∈ s.granted → ∃ i, s.tasks i = .serving k ∨ s.tasks i = .finished k

/-- State after task 0 draws ticket 0 from the initial state. -/
def tDemo1 : TicketSys :=
  { lock := (ticket_draw tInit.lock).2,
    tasks := Function.update tInit.tasks 0 (.waiting (ticket_draw tInit.lock).1),
    granted := tInit.granted }

/-- State after task 0 is then granted the lock (ticket 0 now being served).
-/
def tDemo2 : TicketSys :=
  { lock := tDemo1.lock,
    tasks := Function.update tDemo1.tasks 0 (.serving 0),
    granted := 0 :: tDemo1.granted }

/-- Registry state for `enqueue` (lines 216-247): the `open_files` list as
(path, lock identity) pairs, and an allocation counter standing for the
addresses `malloc` hands out, so distinct allocations have distinct
identities. -/
structure Registry where
  files : List (String × Nat)
  fresh : Nat
deriving DecidableEq

/-- Linked-list search of `open_files` for a path (lines 225-233 and
263-272): identity of the first entry whose path matches, if any. -/
def lookupFile (files : List (String × Nat)) (path : String) : Option Nat :=
  (files.find? (fun e => e.1 == path)).map (fun e => e.2)

/-- Registry effect of `enqueue` (lines 216-247).  If the path is found, the
existing entry's lock is the one acquired.  Otherwise a node and lock are
allocated and the code sets `file->next = NULL; open_files = file`
(lines 240-241), so the new list consists of the new node alone.  Returns
the identity of the lock that `ticket_lock` is then called on. -/
def enqueue_reg (st : Registry) (path : String) : Nat × Registry :=
  match lookupFile st.files path with
  | some id => (id, st)
  | none => (st.fresh, { files := [(path, st.fresh)], fresh := st.fresh + 1 })

/-- Guard lock, entry list and per-lock states for `dequeue`:
`guard` is `open_files_lock`, `locks` maps each allocated lock identity to
its ticket-lock state. -/
structure LockTable where
  guard : QueueLock
  files : List (String × Nat)
  locks : Nat → QueueLock

/-- Embeds `dequeue` (lines 254-274): draw a guard ticket (line 260), search
the list and `ticket_unlock` the first matching entry's lock (lines
263-272), then `ticket_unlock` the guard (line 273).  The guard's own
acquire/release shows up as its drawn ticket plus its served ticket. -/
def dequeue (st : LockTable) (path : String) : LockTable :=
  { guard := ticket_unlock (ticket_draw st.guard).2,
    files := st.files,
    locks :=
      match lookupFile st.files path with
      | some id => Function.update st.locks id (ticket_unlock (st.locks id))
      | none => st.locks }

/-- File-system contents: `none` means the file does not exist. -/
abbrev FS : Type := String → Option (List Char)

/-- Lock acquisitions (`enqueue`), releases (`dequeue`) and truncations
performed while handling one request, in order. -/
inductive Event where
  | acquire : String → Event
  | release : String → Event
  | truncate : String → Event
deriving DecidableEq

/-- Ensure a file exists with its current contents (`fopen(path, "a")`
creates an empty file when the path is absent). -/
def touchFS (fs : FS) (path : String) : FS :=
  fun q => if q = path then some ((fs path).getD []) else fs q

/-- Append bytes to a file, creating it when absent (`fopen(path, "a")`
followed by writes). -/
def appendFS (fs : FS) (path : String) (s : List Char) : FS :=
  fun q => if q = path then some ((fs path).getD [] ++ s) else fs q

/-- Return value, resulting file contents and event trace of a handler or of
a whole worker run. -/
structure OpResult where
  ret : Int
  fs : FS
  evs : List Event

/-- Request-type constant (line 38). -/
def REQUEST_INVALID : Nat := 0
/-- Request-type constant (line 39). -/
def REQUEST_READ : Nat := 1
/-- Request-type constant (line 40). -/
def REQUEST_WRITE : Nat := 2
/-- Request-type constant (line 41). -/
def REQUEST_EMPTY : Nat := 3
/-- Fixed destination of read requests (line 30). -/
def READ_FILE : String := "read.txt"
/-- Fixed destination of empty requests (line 31). -/
def EMPTY_FILE : String := "empty.txt"

/-- Embeds `determine_request` (lines 96-106). -/
def determine_request (cmd : String) : Nat :=
  if cmd = "read" then REQUEST_READ
  else if cmd = "write" then REQUEST_WRITE
  else if cmd = "empty" then REQUEST_EMPTY
  else REQUEST_INVALID

/-- Embeds `write_file` (lines 292-319), with `fopen` fallibility as the
`ok` oracle.  Sleeps are timing-only and not modelled. -/
def write_file (ok : String → Bool) (fs : FS) (path : String) (text : List Char) :
    Int × FS :=
  if ok path then (0, appendFS fs path (text ++ ['\n'])) else (-1, fs)

/-- Embeds `read_file` (lines 337-406): reject `src = dest` before any lock
(lines 344-347); otherwise acquire the destination's lock (line 354), open
the destination for appending, and append either the failure line (missing
source, lines 367-377) or the command line followed by the source contents
(lines 380-394); every path after the acquisition releases the destination
at `cleanup` (line 403). -/
def read_file (ok : String → Bool) (fs : FS) (src dest : String)
    (cmdline : List Char) (before_empty : Bool) : OpResult :=
  if src = dest then ⟨-1, fs, []⟩
  else if ok dest = false then ⟨-1, fs, [.acquire dest, .release dest]⟩
  else if fs src = none then
    ⟨-1,
     appendFS (touchFS fs dest) dest
       (cmdline ++ (if before_empty then ": FILE ALREADY EMPTY\n" else ": FILE DNE\n").toList),
     [.acquire dest, .release dest]⟩
  else if ok src then
    ⟨0,
     appendFS (touchFS fs dest) dest
       (cmdline ++ ": ".toList ++ (fs src).getD [] ++ ['\n']),
     [.acquire dest, .release dest]⟩
  else ⟨-1, touchFS fs dest, [.acquire dest, .release dest]⟩

/-- Embeds `empty_file` (lines 415-446): when the file exists, `fopen` with
mode `w` truncates it; a missing file is not created and the call still
returns 0.  Sleeps are timing-only and not modelled. -/
def empty_file (ok : String → Bool) (fs : FS) (path : String) :
    Int × FS × List Event :=
  match fs path with
  | some _ =>
      if ok path then (0, fun q => if q = path then some [] else fs q, [.truncate path])
      else (-1, fs, [])
  | none => (0, fs, [])

/-- A parsed request: numeric request type, resource path, free text. -/
structure Request where
  rtype : Nat
  path : String
  text : List Char
deriving DecidableEq

/-- Embeds the parsing phase of `worker_thread` (lines 479-527): `strtok`
tokenization on spaces, missing-argument check (lines 486-492), request-type
check (lines 495-501), and the free-text checks driven by
`strlen(cmd) + strlen(file_path) + 2` against the full line length (lines
505-526).  The `text` stack buffer is left uninitialized by the source when
no free text is present; it is modelled as empty. -/
def parseCmd (cmdline : String) : Option Request :=
  match (cmdline.toList.splitOn ' ').filter (fun t => t ≠ []) with
  | cmd :: file_path :: _ =>
    if determine_request (String.mk cmd) = REQUEST_INVALID then none
    else if cmdline.toList.length > cmd.length + file_path.length + 2 then
      if determine_request (String.mk cmd) ≠ REQUEST_WRITE then none
      else if cmdline.toList.length - (cmd.length + file_path.length + 2) > 50 then none
      else some ⟨determine_request (String.mk cmd), String.mk file_path,
                 cmdline.toList.drop (cmd.length + file_path.length + 2)⟩
    else some ⟨determine_request (String.mk cmd), String.mk file_path, []⟩
  | _ => none

/-- Embeds the `switch (request_type)` block of `worker_thread`
(lines 544-563): read into `READ_FILE`, write the free text, or read into
`EMPTY_FILE` and, only on success, truncate (lines 552-558). -/
def handle_request (ok : String → Bool) (fs : FS) (cmdline : String)
    (r : Request) : OpResult :=
  if r.rtype = REQUEST_READ then
    read_file ok fs r.path READ_FILE cmdline.toList false
  else if r.rtype = REQUEST_WRITE then
    ⟨(write_file ok fs r.path r.text).1, (write_file ok fs r.path r.text).2, []⟩
  else if r.rtype = REQUEST_EMPTY then
    if (read_file ok fs r.path EMPTY_FILE cmdline.toList true).ret = 0 then
      ⟨(empty_file ok (read_file ok fs r.path EMPTY_FILE cmdline.toList true).fs r.path).1,
       (empty_file ok (read_file ok fs r.path EMPTY_FILE cmdline.toList true).fs r.path).2.1,
       (read_file ok fs r.path EMPTY_FILE cmdline.toList true).evs
         ++ (empty_file ok (read_file ok fs r.path EMPTY_FILE cmdline.toList true).fs r.path).2.2⟩
    else read_file ok fs r.path EMPTY_FILE cmdline.toList true
  else ⟨-1, fs, []⟩

/-- Embeds `worker_thread` (lines 472-572): on any parse failure the request
is rejected with -1 and no lock is touched; otherwise the named file's lock
is acquired (line 531), the request handled, and the lock released
unconditionally (line 567). -/
def worker_thread (ok : String → Bool) (fs : FS) (cmdline : String) : OpResult :=
  match parseCmd cmdline with
  | none => ⟨-1, fs, []⟩
  | some r =>
    ⟨(handle_request ok fs cmdline r).ret,
     (handle_request ok fs cmdline r).fs,
     .acquire r.path :: ((handle_request ok fs cmdline r).evs ++ [.release r.path])⟩

/-- Fixed destination file of each request type, per the `switch` in
`worker_thread` (lines 545-559). -/
def fixedDest (rtype : Nat) : Option String :=
  if rtype = REQUEST_READ then some READ_FILE
  else if rtype = REQUEST_EMPTY then some EMPTY_FILE
  else none

/-- An event trace is balanced when every path's acquisitions are matched by
an equal number of releases. -/
def Balanced (evs : List Event) : Prop :=
  ∀ x, evs.count (Event.acquire x) = evs.count (Event.release x)

theorem inv_init : Inv tInit := by
  constructor <;> simp [tInit, ticket_init, ticketOf]

theorem inv_step {s s' : TicketSys} (hs : Inv s) (st : TStep s s') : Inv s' := by
  cases st with
  | draw i h =>
    have hti : ticketOf (s.tasks i) = none := by rw [h]; rfl
    refine ⟨?_, ?_, ?_, ?_, ?_, ?_, hs.sorted, ?_⟩
    · show s.lock.curr ≤ s.lock.waiting + 1
      have := hs.curr_le
      omega
    · intro j k hk
      show k < s.lock.waiting + 1
      simp only [ticket_draw, Function.update_apply] at hk
      by_cases hj : j = i
      · rw [if_pos hj] at hk
        simp only [ticketOf, Option.some.injEq] at hk
        have hk2 : s.lock.waiting = k := hk
        omega
      · rw [if_neg hj] at hk
        have := hs.ticket_lt j k hk
        omega
    · intro a b k ha hb
      simp only [ticket_draw, Function.update_apply] at ha hb
      by_cases hai : a = i <;> by_cases hbi : b = i
      · rw [hai, hbi]
      · rw [if_pos hai] at ha
        rw [if_neg hbi] at hb
        simp only [ticketOf, Option.some.injEq] at ha
        have ha2 : s.lock.waiting = k := ha
        have := hs.ticket_lt b k hb
        omega
      · rw [if_neg hai] at ha
        rw [if_pos hbi] at hb
        simp only [ticketOf, Option.some.injEq] at hb
        have hb2 : s.lock.waiting = k := hb
        have := hs.ticket_lt a k ha
        omega
      · rw [if_neg hai] at ha
        rw [if_neg hbi] at hb
        exact hs.inj a b k ha hb
    · intro j k hk
      simp only [Function.update_apply] at hk
      by_cases hj : j = i
      · rw [if_pos hj] at hk
        exact absurd hk (by simp)
      · rw [if_neg hj] at hk
        exact hs.serv_curr j k hk
    · intro j k hk
      simp only [Function.update_apply] at hk
      by_cases hj : j = i
      · rw [if_pos hj] at hk
        exact absurd hk (by simp)
      · rw [if_neg hj] at hk
        exact hs.fin_lt j k hk
    · intro j k hk
      show s.lock.curr ≤ k
      simp only [ticket_draw, Function.update_apply] at hk
      by_cases hj : j = i
      · rw [if_pos hj] at hk
        simp only [TaskPhase.waiting.injEq] at hk
        have hk2 : s.lock.waiting = k := hk
        have := hs.curr_le
        omega
      · rw [if_neg hj] at hk
        exact hs.wait_ge j k hk
    · intro k hk
      obtain ⟨j, hj⟩ := hs.owner k hk
      have hji : j ≠ i := by
        intro hji; rw [hji, h] at hj
        rcases hj with hj | hj <;> exact TaskPhase.noConfusion hj
      refine ⟨j, ?_⟩
      simp only [Function.update_apply, if_neg hji]
      exact hj
  | enter i k h hc =>
    have hkc : k = s.lock.curr := by simpa [may_proceed] using hc
    have hti : ticketOf (s.tasks i) = some k := by rw [h]; rfl
    refine ⟨hs.curr_le, ?_, ?_, ?_, ?_, ?_, ?_, ?_⟩
    · intro j k' hk'
      simp only [Function.update_apply] at hk'
      by_cases hj : j = i
      · rw [if_pos hj] at hk'
        simp only [ticketOf, Option.some.injEq] at hk'
        rw [← hk']
        exact hs.ticket_lt i k hti
      · rw [if_neg hj] at hk'
        exact hs.ticket_lt j k' hk'
    · intro a b k' ha hb
      simp only [Function.update_apply] at ha hb
      by_cases hai : a = i <;> by_cases hbi : b = i
      · rw [hai, hbi]
      · rw [if_pos hai] at ha
        rw [if_neg hbi] at hb
        simp only [ticketOf, Option.some.injEq] at ha
        rw [hai]
        exact (hs.inj b i k' hb (ha ▸ hti)).symm
      · rw [if_neg hai] at ha
        rw [if_pos hbi] at hb
        simp only [ticketOf, Option.some.injEq] at hb
        rw [hbi]
        exact hs.inj a i k' ha (hb ▸ hti)
      · rw [if_neg hai] at ha
        rw [if_neg hbi] at hb
        exact hs.inj a b k' ha hb
    · intro j k' hk'
      simp only [Function.update_apply] at hk'
      by_cases hj : j = i
      · rw [if_pos hj] at hk'
        simp only [TaskPhase.serving.injEq] at hk'
        rw [← hk']
        exact hkc
      · rw [if_neg hj] at hk'
        exact hs.serv_curr j k' hk'
    · intro j k' hk'
      simp only [Function.update_apply] at hk'
      by_cases hj : j = i
      · rw [if_pos hj] at hk'
        exact absurd hk' (by simp)
      · rw [if_neg hj] at hk'
        exact hs.fin_lt j k' hk'
    · intro j k' hk'
      simp only [Function.update_apply] at hk'
      by_cases hj : j = i
      · rw [if_pos hj] at hk'
        exact absurd hk' (by simp)
      · rw [if_neg hj] at hk'
        exact hs.wait_ge j k' hk'
    · refine List.sorted_cons.mpr ⟨?_, hs.sorted⟩
      intro b hb
      obtain ⟨j, hj⟩ := hs.owner b hb
      have hji : j ≠ i := by
        intro hji; rw [hji, h] at hj
        rcases hj with hj | hj <;> exact TaskPhase.noConfusion hj
      rcases hj with hj | hj
      · exfalso
        have hbc : b = s.lock.curr := hs.serv_curr j b hj
        have htj : ticketOf (s.tasks j) = some k := by
          rw [hj]; simp [ticketOf]; omega
        exact hji (hs.inj j i k htj hti)
      · have : b < s.lock.curr := hs.fin_lt j b hj
        omega
    · intro k' hk'
      rcases List.mem_cons.mp hk' with hk' | hk'
      · exact ⟨i, Or.inl (by simp [hk'])⟩
      · obtain ⟨j, hj⟩ := hs.owner k' hk'
        have hji : j ≠ i := by
          intro hji; rw [hji, h] at hj
          rcases hj with hj | hj <;> exact TaskPhase.noConfusion hj
        refine ⟨j, ?_⟩
        simp only [Function.update_apply, if_neg hji]
        exact hj
  | exit i k h =>
    have hkc : k = s.lock.curr := hs.serv_curr i k h
    have hti : ticketOf (s.tasks i) = some k := by rw [h]; rfl
    refine ⟨?_, ?_, ?_, ?_, ?_, ?_, hs.sorted, ?_⟩
    · show s.lock.curr + 1 ≤ s.lock.waiting
      have := hs.ticket_lt i k hti
      omega
    · intro j k' hk'
      show k' < s.lock.waiting
      simp only [Function.update_apply] at hk'
      by_cases hj : j = i
      · rw [if_pos hj] at hk'
        simp only [ticketOf, Option.some.injEq] at hk'
        rw [← hk']
        exact hs.ticket_lt i k hti
      · rw [if_neg hj] at hk'
        exact hs.ticket_lt j k' hk'
    · intro a b k' ha hb
      simp only [Function.update_apply] at ha hb
      by_cases hai : a = i <;> by_cases hbi : b = i
      · rw [hai, hbi]
      · rw [if_pos hai] at ha
        rw [if_neg hbi] at hb
        simp only [ticketOf, Option.some.injEq] at ha
        rw [hai]
        exact (hs.inj b i k' hb (ha ▸ hti)).symm
      · rw [if_neg hai] at ha
        rw [if_pos hbi] at hb
        simp only [ticketOf, Option.some.injEq] at hb
        rw [hbi]
        exact hs.inj a i k' ha (hb ▸ hti)
      · rw [if_neg hai] at ha
        rw [if_neg hbi] at hb
        exact hs.inj a b k' ha hb
    · intro j k' hk'
      simp only [Function.update_apply] at hk'
      by_cases hj : j = i
      · rw [if_pos hj] at hk'
        exact absurd hk' (by simp)
      · rw [if_neg hj] at hk'
        exfalso
        have hk'c : k' = s.lock.curr := hs.serv_curr j k' hk'
        have htj : ticketOf (s.tasks j) = some k := by
          rw [hk']; simp [ticketOf]; omega
        exact hj (hs.inj j i k htj hti)
    · intro j k' hk'
      show k' < s.lock.curr + 1
      simp only [Function.update_apply] at hk'
      by_cases hj : j = i
      · rw [if_pos hj] at hk'
        simp only [TaskPhase.finished.injEq] at hk'
        omega
      · rw [if_neg hj] at hk'
        have := hs.fin_lt j k' hk'
        omega
    · intro j k' hk'
      show s.lock.curr + 1 ≤ k'
      simp only [Function.update_apply] at hk'
      by_cases hj : j = i
      · rw [if_pos hj] at hk'
        exact absurd hk' (by simp)
      · rw [if_neg hj] at hk'
        have h1 : s.lock.curr ≤ k' := hs.wait_ge j k' hk'
        have h2 : k' ≠ k := by
          intro hkk
          exact hj (hs.inj j i k' (by rw [hk']; rfl) (hkk ▸ hti))
        omega
    · intro k' hk'
      obtain ⟨j, hj⟩ := hs.owner k' hk'
      by_cases hj' : j = i
      · refine ⟨j, Or.inr ?_⟩
        have hk'k : k' = k := by
          rw [hj', h] at hj
          rcases hj with hj | hj
          · cases hj; rfl
          · exact TaskPhase.noConfusion hj
        simp only [Function.update_apply, if_pos hj', hk'k]
      · refine ⟨j, ?_⟩
        simp only [Function.update_apply, if_neg hj']
        exact hj

theorem inv_reachable {s : TicketSys} (h : Reachable s) : Inv s := by
  induction h with
  | refl => exact inv_init
  | tail _ hstep ih => exact inv_step ih hstep

theorem tDemo2_reachable : Reachable tDemo2 := by
  have h1 : TStep tInit tDemo1 := TStep.draw tInit 0 rfl
  have h2 : TStep tDemo1 tDemo2 := TStep.enter tDemo1 0 0 rfl rfl
  exact Relation.ReflTransGen.tail (Relation.ReflTransGen.tail Relation.ReflTransGen.refl h1) h2

/-- C1: in every reachable state of the ticket-lock system the grants of
exclusive use happened in strictly increasing ticket order (tickets are
drawn sequentially at call-issue time, so this is issue order), a task with
ticket `k` serves only while `curr = k`, and at most one task is serving. -/
theorem c1_fifo_order (s : TicketSys) (h : Reachable s) :
    List.Sorted (· > ·) s.granted
    ∧ (∀ i k, s.tasks i = .serving k → k = s.lock.curr)
    ∧ (∀ i j k₁ k₂, s.tasks i = .serving k₁ → s.tasks j = .serving k₂ → i = j) := by
  have hs := inv_reachable h
  refine ⟨hs.sorted, hs.serv_curr, ?_⟩
  intro i j k₁ k₂ hi hj
  have h1 := hs.serv_curr i k₁ hi
  have h2 := hs.serv_curr j k₂ hj
  have hk : k₁ = k₂ := by rw [h1, h2]
  exact hs.inj i j k₁ (by rw [hi]; rfl) (by rw [hj, hk]; rfl)

/-- Witness for C1 at the concrete reachable state `tDemo2` (task 0 drew
ticket 0 and is serving). -/
theorem c1_fifo_order_witness :
    List.Sorted (· > ·) tDemo2.granted
    ∧ (∀ i k, tDemo2.tasks i = .serving k → k = tDemo2.lock.curr)
    ∧ (∀ i j k₁ k₂, tDemo2.tasks i = .serving k₁ → tDemo2.tasks j = .serving k₂ → i = j) :=
  c1_fifo_order tDemo2 tDemo2_reachable

/-- C3: `ticket_lock` draws the next sequential ticket, incrementing
`waiting` by exactly one, and its wait loop lets the caller proceed exactly
when `curr` equals that ticket; `ticket_unlock` advances `curr` by exactly
one, leaving `waiting` unchanged, and after the broadcast only the holder of
ticket `curr + 1` passes the wait condition — every other ticket re-blocks.
-/
theorem c3_ticket_contract (l : QueueLock) (t : Nat) :
    (ticket_draw l).1 = l.waiting
    ∧ (ticket_draw l).2.waiting = l.waiting + 1
    ∧ (ticket_draw l).2.curr = l.curr
    ∧ (may_proceed l t = true ↔ t = l.curr)
    ∧ (ticket_unlock l).curr = l.curr + 1
    ∧ (ticket_unlock l).waiting = l.waiting
    ∧ (may_proceed (ticket_unlock l) t = true ↔ t = l.curr + 1) := by
  refine ⟨rfl, rfl, rfl, ?_, rfl, rfl, ?_⟩ <;> simp [may_proceed, ticket_unlock]

/-- C2 evaluated at the failing input: `enqueue("a")`, `enqueue("b")`,
`enqueue("a")`.  The not-found branch of `enqueue` replaces the whole
`open_files` list with the single new node (`file->next = NULL;
open_files = file`), so inserting "b" discards the entry for "a" and the
third call allocates a fresh lock (identity 2) for "a" instead of returning
the lock (identity 0) of the first call — the same name does not map to one
same mutex instance, contradicting the claim (and the function's own
comments, which assume no files are open in that branch). -/
theorem c2_enqueue_fresh_lock_for_seen_name :
    (enqueue_reg ⟨[], 0⟩ "a").1 = 0
    ∧ (enqueue_reg (enqueue_reg ⟨[], 0⟩ "a").2 "b").1 = 1
    ∧ (enqueue_reg (enqueue_reg (enqueue_reg ⟨[], 0⟩ "a").2 "b").2 "a").1 = 2
    ∧ (enqueue_reg (enqueue_reg (enqueue_reg ⟨[], 0⟩ "a").2 "b").2 "a").1
        ≠ (enqueue_reg ⟨[], 0⟩ "a").1 := by
  refine ⟨rfl, rfl, rfl, by decide⟩

/-- C8: `dequeue` on a path with no registry entry cycles the guard lock
(one ticket drawn, one served), leaves the entry list and every per-file
lock untouched, and the source reports no error on this path (it has no
error print in `dequeue` at all). -/
theorem c8_dequeue_missing_path (st : LockTable) (path : String)
    (h : lookupFile st.files path = none) :
    (dequeue st path).files = st.files
    ∧ (∀ n, (dequeue st path).locks n = st.locks n)
    ∧ (dequeue st path).guard.curr = st.guard.curr + 1
    ∧ (dequeue st path).guard.waiting = st.guard.waiting + 1 := by
  refine ⟨rfl, ?_, rfl, rfl⟩
  intro n
  simp [dequeue, h]

/-- Witness for C8 on an empty lock table and path "x". -/
theorem c8_dequeue_missing_path_witness :
    lookupFile (LockTable.mk ⟨0, 0⟩ [] (fun _ => ⟨0, 0⟩)).files "x" = none
    ∧ ((dequeue (LockTable.mk ⟨0, 0⟩ [] (fun _ => ⟨0, 0⟩)) "x").files
          = (LockTable.mk ⟨0, 0⟩ [] (fun _ => ⟨0, 0⟩)).files
       ∧ (∀ n, (dequeue (LockTable.mk ⟨0, 0⟩ [] (fun _ => ⟨0, 0⟩)) "x").locks n
          = (LockTable.mk ⟨0, 0⟩ [] (fun _ => ⟨0, 0⟩)).locks n)
       ∧ (dequeue (LockTable.mk ⟨0, 0⟩ [] (fun _ => ⟨0, 0⟩)) "x").guard.curr
          = (LockTable.mk ⟨0, 0⟩ [] (fun _ => ⟨0, 0⟩)).guard.curr + 1
       ∧ (dequeue (LockTable.mk ⟨0, 0⟩ [] (fun _ => ⟨0, 0⟩)) "x").guard.waiting
          = (LockTable.mk ⟨0, 0⟩ [] (fun _ => ⟨0, 0⟩)).guard.waiting + 1) :=
  ⟨rfl, c8_dequeue_missing_path (LockTable.mk ⟨0, 0⟩ [] (fun _ => ⟨0, 0⟩)) "x" rfl⟩

/-- C5: any command line rejected by the parsing phase (missing resource
name, unknown operation, free text on a non-write operation, or free text
longer than 50 characters) yields result -1, leaves the file system
untouched and produces no lock event at all: neither `enqueue` nor
`ticket_lock` runs for that request. -/
theorem c5_parse_failure_no_lock (ok : String → Bool) (fs : FS) (cmdline : String)
    (h : parseCmd cmdline = none) :
    worker_thread ok fs cmdline = ⟨-1, fs, []⟩ := by
  simp [worker_thread, h]

/-- Witness for C5 on the command line "write" (missing resource name). -/
theorem c5_parse_failure_no_lock_witness :
    parseCmd "write" = none
    ∧ worker_thread (fun _ => true) (fun _ => none) "write" = ⟨-1, (fun _ => none), []⟩ :=
  ⟨rfl, c5_parse_failure_no_lock (fun _ => true) (fun _ => none) "write" rfl⟩

theorem appendFS_get (fs : FS) (p : String) (s : List Char) :
    appendFS fs p s p = some ((fs p).getD [] ++ s) := by
  simp [appendFS]

theorem touchFS_get (fs : FS) (p : String) :
    touchFS fs p p = some ((fs p).getD []) := by
  simp [touchFS]

theorem read_file_evs (ok : String → Bool) (fs : FS) (src dest : String)
    (cmdline : List Char) (be : Bool) :
    (read_file ok fs src dest cmdline be).evs = []
    ∨ (read_file ok fs src dest cmdline be).evs = [Event.acquire dest, Event.release dest] := by
  unfold read_file
  by_cases h1 : src = dest
  · rw [if_pos h1]; left; rfl
  · rw [if_neg h1]
    by_cases h2 : ok dest = false
    · rw [if_pos h2]; right; rfl
    · rw [if_neg h2]
      by_cases h3 : fs src = none
      · rw [if_pos h3]; right; rfl
      · rw [if_neg h3]
        by_cases h4 : ok src = true
        · rw [if_pos h4]; right; rfl
        · rw [if_neg h4]; right; rfl

theorem read_file_ret (ok : String → Bool) (fs : FS) (src dest : String)
    (cmdline : List Char) (be : Bool) :
    (read_file ok fs src dest cmdline be).ret = 0
    ∨ (read_file ok fs src dest cmdline be).ret = -1 := by
  unfold read_file
  by_cases h1 : src = dest
  · rw [if_pos h1]; right; rfl
  · rw [if_neg h1]
    by_cases h2 : ok dest = false
    · rw [if_pos h2]; right; rfl
    · rw [if_neg h2]
      by_cases h3 : fs src = none
      · rw [if_pos h3]; right; rfl
      · rw [if_neg h3]
        by_cases h4 : ok src = true
        · rw [if_pos h4]; left; rfl
        · rw [if_neg h4]; right; rfl

theorem empty_file_evs (ok : String → Bool) (fs : FS) (path : String) :
    (empty_file ok fs path).2.2 = []
    ∨ (empty_file ok fs path).2.2 = [Event.truncate path] := by
  unfold empty_file
  cases h : fs path
  · left; rfl
  · by_cases h2 : ok path = true
    · rw [if_pos h2]; right; rfl
    · rw [if_neg h2]; left; rfl

theorem empty_file_ret (ok : String → Bool) (fs : FS) (path : String) :
    (empty_file ok fs path).1 = 0 ∨ (empty_file ok fs path).1 = -1 := by
  unfold empty_file
  cases h : fs path
  · left; rfl
  · by_cases h2 : ok path = true
    · rw [if_pos h2]; left; rfl
    · rw [if_neg h2]; right; rfl

theorem write_file_ret (ok : String → Bool) (fs : FS) (path : String) (text : List Char) :
    (write_file ok fs path text).1 = 0 ∨ (write_file ok fs path text).1 = -1 := by
  unfold write_file
  by_cases h : ok path = true
  · rw [if_pos h]; left; rfl
  · rw [if_neg h]; right; rfl

theorem balanced_nil : Balanced [] := by
  intro x; rfl

theorem balanced_pair (d : String) : Balanced [Event.acquire d, Event.release d] := by
  intro x
  by_cases h : x = d
  · subst h; simp [List.count_cons]
  · simp [List.count_cons, h]

theorem balanced_truncate (p : String) : Balanced [Event.truncate p] := by
  intro x
  simp [List.count_cons]

theorem balanced_append {l₁ l₂ : List Event} (h₁ : Balanced l₁) (h₂ : Balanced l₂) :
    Balanced (l₁ ++ l₂) := by
  intro x
  simp [List.count_append, h₁ x, h₂ x]

theorem handle_request_balanced (ok : String → Bool) (fs : FS) (cmdline : String)
    (r : Request) : Balanced (handle_request ok fs cmdline r).evs := by
  unfold handle_request
  by_cases h1 : r.rtype = REQUEST_READ
  · rw [if_pos h1]
    rcases read_file_evs ok fs r.path READ_FILE cmdline.toList false with h | h <;> rw [h]
    · exact balanced_nil
    · exact balanced_pair _
  · rw [if_neg h1]
    by_cases h2 : r.rtype = REQUEST_WRITE
    · rw [if_pos h2]
      exact balanced_nil
    · rw [if_neg h2]
      by_cases h3 : r.rtype = REQUEST_EMPTY
      · rw [if_pos h3]
        by_cases h4 : (read_file ok fs r.path EMPTY_FILE cmdline.toList true).ret = 0
        · rw [if_pos h4]
          show Balanced ((read_file ok fs r.path EMPTY_FILE cmdline.toList true).evs
            ++ (empty_file ok (read_file ok fs r.path EMPTY_FILE cmdline.toList true).fs r.path).2.2)
          refine balanced_append ?_ ?_
          · rcases read_file_evs ok fs r.path EMPTY_FILE cmdline.toList true with h | h <;> rw [h]
            · exact balanced_nil
            · exact balanced_pair _
          · rcases empty_file_evs ok (read_file ok fs r.path EMPTY_FILE cmdline.toList true).fs r.path with h | h <;> rw [h]
            · exact balanced_nil
            · exact balanced_truncate _
        · rw [if_neg h4]
          rcases read_file_evs ok fs r.path EMPTY_FILE cmdline.toList true with h | h <;> rw [h]
          · exact balanced_nil
          · exact balanced_pair _
      · rw [if_neg h3]
        exact balanced_nil

theorem handle_request_ret (ok : String → Bool) (fs : FS) (cmdline : String)
    (r : Request) :
    (handle_request ok fs cmdline r).ret = 0 ∨ (handle_request ok fs cmdline r).ret = -1 := by
  unfold handle_request
  by_cases h1 : r.rtype = REQUEST_READ
  · rw [if_pos h1]
    exact read_file_ret ok fs r.path READ_FILE cmdline.toList false
  · rw [if_neg h1]
    by_cases h2 : r.rtype = REQUEST_WRITE
    · rw [if_pos h2]
      exact write_file_ret ok fs r.path r.text
    · rw [if_neg h2]
      by_cases h3 : r.rtype = REQUEST_EMPTY
      · rw [if_pos h3]
        by_cases h4 : (read_file ok fs r.path EMPTY_FILE cmdline.toList true).ret = 0
        · rw [if_pos h4]
          exact empty_file_ret ok (read_file ok fs r.path EMPTY_FILE cmdline.toList true).fs r.path
        · rw [if_neg h4]
          exact read_file_ret ok fs r.path EMPTY_FILE cmdline.toList true
      · rw [if_neg h3]
        right; rfl

theorem read_file_acquire_mem (ok : String → Bool) (fs : FS) (src dest : String)
    (cmdline : List Char) (be : Bool) (p : String)
    (h : Event.acquire p ∈ (read_file ok fs src dest cmdline be).evs) : p = dest := by
  rcases read_file_evs ok fs src dest cmdline be with he | he <;> rw [he] at h
  · simp at h
  · simpa using h

theorem empty_file_no_acquire (ok : String → Bool) (fs : FS) (path p : String) :
    Event.acquire p ∉ (empty_file ok fs path).2.2 := by
  rcases empty_file_evs ok fs path with he | he <;> rw [he] <;> simp

theorem handle_request_acquire (ok : String → Bool) (fs : FS) (cmdline : String)
    (r : Request) (p : String)
    (h : Event.acquire p ∈ (handle_request ok fs cmdline r).evs) :
    fixedDest r.rtype = some p := by
  unfold handle_request at h
  by_cases h1 : r.rtype = REQUEST_READ
  · rw [if_pos h1] at h
    have hp := read_file_acquire_mem ok fs r.path READ_FILE cmdline.toList false p h
    unfold fixedDest
    rw [if_pos h1, hp]
  · rw [if_neg h1] at h
    by_cases h2 : r.rtype = REQUEST_WRITE
    · rw [if_pos h2] at h
      simp at h
    · rw [if_neg h2] at h
      by_cases h3 : r.rtype = REQUEST_EMPTY
      · rw [if_pos h3] at h
        unfold fixedDest
        rw [if_neg h1, if_pos h3]
        by_cases h4 : (read_file ok fs r.path EMPTY_FILE cmdline.toList true).ret = 0
        · rw [if_pos h4] at h
          have h' : Event.acquire p ∈
              (read_file ok fs r.path EMPTY_FILE cmdline.toList true).evs
              ++ (empty_file ok (read_file ok fs r.path EMPTY_FILE cmdline.toList true).fs r.path).2.2 := h
          rcases List.mem_append.mp h' with h'' | h''
          · rw [read_file_acquire_mem ok fs r.path EMPTY_FILE cmdline.toList true p h'']
          · exact absurd h'' (empty_file_no_acquire ok _ r.path p)
        · rw [if_neg h4] at h
          rw [read_file_acquire_mem ok fs r.path EMPTY_FILE cmdline.toList true p h]
      · rw [if_neg h3] at h
        simp at h

theorem read_file_success (ok : String → Bool) (fs : FS) (src dest : String)
    (cmdline : List Char) (be : Bool) (c : List Char)
    (hne : src ≠ dest) (hok : ok dest = true) (hsrc : fs src = some c)
    (hoks : ok src = true) :
    read_file ok fs src dest cmdline be =
      ⟨0, appendFS (touchFS fs dest) dest (cmdline ++ ": ".toList ++ c ++ ['\n']),
       [Event.acquire dest, Event.release dest]⟩ := by
  unfold read_file
  rw [if_neg hne, if_neg (by simp [hok]), if_neg (by simp [hsrc]), if_pos hoks, hsrc]
  rfl

theorem read_file_dne (ok : String → Bool) (fs : FS) (src dest : String)
    (cmdline : List Char) (be : Bool)
    (hne : src ≠ dest) (hok : ok dest = true) (hsrc : fs src = none) :
    read_file ok fs src dest cmdline be =
      ⟨-1, appendFS (touchFS fs dest) dest
            (cmdline ++ (if be then ": FILE ALREADY EMPTY\n" else ": FILE DNE\n").toList),
       [Event.acquire dest, Event.release dest]⟩ := by
  unfold read_file
  rw [if_neg hne, if_neg (by simp [hok]), if_pos hsrc]

/-- C4: whatever the parse outcome, the handler branch taken, and the
success or failure of every `fopen`, a worker run's event trace has every
lock acquisition matched by a release on the same path (release is reached
on every exit path), and the recorded result is 0 or -1 — a failing handler
marks the request failed, nothing else. -/
theorem c4_release_on_all_paths (ok : String → Bool) (fs : FS) (cmdline : String)
    (p : String) :
    ((worker_thread ok fs cmdline).evs.count (Event.acquire p)
      = (worker_thread ok fs cmdline).evs.count (Event.release p))
    ∧ ((worker_thread ok fs cmdline).ret = 0 ∨ (worker_thread ok fs cmdline).ret = -1) := by
  unfold worker_thread
  cases hp : parseCmd cmdline with
  | none => exact ⟨rfl, Or.inr rfl⟩
  | some r =>
    constructor
    · have hcnt := handle_request_balanced ok fs cmdline r p
      show (Event.acquire r.path :: ((handle_request ok fs cmdline r).evs
              ++ [Event.release r.path])).count (Event.acquire p)
          = (Event.acquire r.path :: ((handle_request ok fs cmdline r).evs
              ++ [Event.release r.path])).count (Event.release p)
      by_cases hpq : p = r.path
      · subst hpq
        simp [List.count_cons, List.count_append, hcnt]
      · simp [List.count_cons, List.count_append, hcnt, hpq]
    · rcases handle_request_ret ok fs cmdline r with h | h
      · left; exact h
      · right; exact h

/-- C6 counterexample to the disjointness part: the destination set
{read.txt, empty.txt} is not disjoint from the resource names users may
target — "empty read.txt" and "read empty.txt" are both accepted, the first
holds read.txt and wants destination empty.txt, the second holds empty.txt
and wants destination read.txt, a crossed hold/want pair on the two
destination files. -/
theorem c6_counterexample :
    parseCmd "empty read.txt" = some ⟨REQUEST_EMPTY, READ_FILE, []⟩
    ∧ parseCmd "read empty.txt" = some ⟨REQUEST_READ, EMPTY_FILE, []⟩
    ∧ fixedDest REQUEST_EMPTY = some EMPTY_FILE
    ∧ fixedDest REQUEST_READ = some READ_FILE :=
  ⟨rfl, rfl, rfl, rfl⟩

/-- C6 amended: every lock acquired during a worker run is either the lock
of the user-named resource itself or the fixed destination of the request
type (read.txt for read, empty.txt for empty); the destination set is
however not disjoint from user-targetable resource names, since a user may
name read.txt or empty.txt directly. -/
theorem c6_second_lock_is_fixed_dest (ok : String → Bool) (fs : FS) (cmdline : String)
    (r : Request) (p : String) (hp : parseCmd cmdline = some r)
    (hm : Event.acquire p ∈ (worker_thread ok fs cmdline).evs) :
    p = r.path ∨ fixedDest r.rtype = some p := by
  unfold worker_thread at hm
  rw [hp] at hm
  have hm' : Event.acquire p ∈
      (Event.acquire r.path :: ((handle_request ok fs cmdline r).evs
        ++ [Event.release r.path])) := hm
  rcases List.mem_cons.mp hm' with h | h
  · left
    exact Event.acquire.inj h
  · rcases List.mem_append.mp h with h' | h'
    · right
      exact handle_request_acquire ok fs cmdline r p h'
    · simp at h'

/-- Witness for C6 (amended) on "read a": the second lock acquired is
read.txt, the fixed destination of read requests. -/
theorem c6_second_lock_is_fixed_dest_witness :
    parseCmd "read a" = some ⟨REQUEST_READ, "a", []⟩
    ∧ Event.acquire "read.txt" ∈ (worker_thread (fun _ => true) (fun _ => none) "read a").evs
    ∧ ("read.txt" = (Request.mk REQUEST_READ "a" []).path
        ∨ fixedDest (Request.mk REQUEST_READ "a" []).rtype = some "read.txt") :=
  ⟨rfl, by decide,
   c6_second_lock_is_fixed_dest (fun _ => true) (fun _ => none) "read a"
     (Request.mk REQUEST_READ "a" []) "read.txt" rfl (by decide)⟩

/-- C7: writing payload "hello" to resource "foo" (append plus newline) and
then reading "foo" into destination "out" (append of the command line, the
full source contents and a newline) leaves the literal written bytes
"hello" inside "out". -/
theorem c7_round_trip (ok : String → Bool) (fs : FS) (cmdline : List Char)
    (h1 : ok "foo" = true) (h2 : ok "out" = true) :
    (write_file ok fs "foo" ("hello".toList)).1 = 0
    ∧ (read_file ok (write_file ok fs "foo" ("hello".toList)).2 "foo" "out" cmdline false).ret = 0
    ∧ ("hello".toList <:+:
        ((read_file ok (write_file ok fs "foo" ("hello".toList)).2 "foo" "out" cmdline false).fs "out").getD []) := by
  have hw : write_file ok fs "foo" ("hello".toList)
      = (0, appendFS fs "foo" ("hello".toList ++ ['\n'])) := by
    unfold write_file
    rw [if_pos h1]
  have hsrc : (write_file ok fs "foo" ("hello".toList)).2 "foo"
      = some ((fs "foo").getD [] ++ ("hello".toList ++ ['\n'])) := by
    rw [hw]
    exact appendFS_get fs "foo" ("hello".toList ++ ['\n'])
  have hr := read_file_success ok ((write_file ok fs "foo" ("hello".toList)).2) "foo" "out"
      cmdline false ((fs "foo").getD [] ++ ("hello".toList ++ ['\n'])) (by decide) h2 hsrc h1
  refine ⟨by rw [hw], by rw [hr], ?_⟩
  rw [hr]
  show "hello".toList <:+:
      ((appendFS (touchFS ((write_file ok fs "foo" ("hello".toList)).2) "out") "out"
        (cmdline ++ ": ".toList ++ ((fs "foo").getD [] ++ ("hello".toList ++ ['\n'])) ++ ['\n'])) "out").getD []
  rw [appendFS_get, touchFS_get]
  simp only [Option.getD_some]
  refine ⟨(((write_file ok fs "foo" ("hello".toList)).2 "out").getD [])
      ++ cmdline ++ ": ".toList ++ (fs "foo").getD [], ['\n'] ++ ['\n'], ?_⟩
  simp [List.append_assoc]

/-- Witness for C7 with an all-succeeding `fopen` oracle, an empty file
system and command line "read foo". -/
theorem c7_round_trip_witness :
    (write_file (fun _ => true) (fun _ => none) "foo" ("hello".toList)).1 = 0
    ∧ (read_file (fun _ => true) (write_file (fun _ => true) (fun _ => none) "foo" ("hello".toList)).2
        "foo" "out" ("read foo".toList) false).ret = 0
    ∧ ("hello".toList <:+:
        ((read_file (fun _ => true) (write_file (fun _ => true) (fun _ => none) "foo" ("hello".toList)).2
          "foo" "out" ("read foo".toList) false).fs "out").getD []) :=
  c7_round_trip (fun _ => true) (fun _ => none) ("read foo".toList) rfl rfl

/-- C9 counterexample: "empty empty.txt" is an empty request naming a file
that does not exist, yet nothing is appended to empty.txt — `read_file`
rejects the self-pair src = dest before opening anything (the result is
still -1). -/
theorem c9_counterexample :
    parseCmd "empty empty.txt" = some ⟨REQUEST_EMPTY, EMPTY_FILE, []⟩
    ∧ ((fun _ => none : FS) EMPTY_FILE) = none
    ∧ (worker_thread (fun _ => true) (fun _ => none) "empty empty.txt").fs EMPTY_FILE = none
    ∧ (worker_thread (fun _ => true) (fun _ => none) "empty empty.txt").ret = -1 :=
  ⟨rfl, rfl, rfl, rfl⟩

/-- C9 amended: for every empty request naming a missing file other than
empty.txt itself, provided empty.txt can be opened for appending, the line
"cmdline: FILE ALREADY EMPTY" is appended to empty.txt, the named file is
neither created nor truncated, and the result is -1. -/
theorem c9_empty_missing_appends_line (ok : String → Bool) (fs : FS) (cmdline : String)
    (r : Request) (hp : parseCmd cmdline = some r) (hty : r.rtype = REQUEST_EMPTY)
    (hdne : fs r.path = none) (hne : r.path ≠ EMPTY_FILE) (hok : ok EMPTY_FILE = true) :
    (worker_thread ok fs cmdline).ret = -1
    ∧ (worker_thread ok fs cmdline).fs r.path = none
    ∧ (worker_thread ok fs cmdline).fs EMPTY_FILE
        = some ((fs EMPTY_FILE).getD []
            ++ (cmdline.toList ++ ": FILE ALREADY EMPTY\n".toList))
    ∧ Event.truncate r.path ∉ (worker_thread ok fs cmdline).evs := by
  have hrr := read_file_dne ok fs r.path EMPTY_FILE cmdline.toList true hne hok hdne
  have hret : (read_file ok fs r.path EMPTY_FILE cmdline.toList true).ret = -1 := by
    rw [hrr]
  have hh : handle_request ok fs cmdline r
      = read_file ok fs r.path EMPTY_FILE cmdline.toList true := by
    unfold handle_request
    rw [hty]
    rw [if_neg (by decide), if_neg (by decide), if_pos rfl, if_neg (by rw [hret]; decide)]
  unfold worker_thread
  rw [hp]
  refine ⟨?_, ?_, ?_, ?_⟩
  · show (handle_request ok fs cmdline r).ret = -1
    rw [hh, hret]
  · show (handle_request ok fs cmdline r).fs r.path = none
    rw [hh, hrr]
    show (appendFS (touchFS fs EMPTY_FILE) EMPTY_FILE
        (cmdline.toList ++ (if true then ": FILE ALREADY EMPTY\n" else ": FILE DNE\n").toList)) r.path = none
    simp [appendFS, touchFS, hne, hdne]
  · show (handle_request ok fs cmdline r).fs EMPTY_FILE
        = some ((fs EMPTY_FILE).getD []
            ++ (cmdline.toList ++ ": FILE ALREADY EMPTY\n".toList))
    rw [hh, hrr]
    show (appendFS (touchFS fs EMPTY_FILE) EMPTY_FILE
        (cmdline.toList ++ (if true then ": FILE ALREADY EMPTY\n" else ": FILE DNE\n").toList)) EMPTY_FILE
        = some ((fs EMPTY_FILE).getD [] ++ (cmdline.toList ++ ": FILE ALREADY EMPTY\n".toList))
    rw [appendFS_get, touchFS_get]
    simp only [Option.getD_some, if_true]
  · show Event.truncate r.path ∉
      (Event.acquire r.path :: ((handle_request ok fs cmdline r).evs ++ [Event.release r.path]))
    rw [hh, hrr]
    simp

/-- Witness for C9 (amended) on "empty a" with an empty file system. -/
theorem c9_empty_missing_appends_line_witness :
    (parseCmd "empty a" = some ⟨REQUEST_EMPTY, "a", []⟩
     ∧ (Request.mk REQUEST_EMPTY "a" []).rtype = REQUEST_EMPTY
     ∧ (fun _ => none : FS) (Request.mk REQUEST_EMPTY "a" []).path = none
     ∧ (Request.mk REQUEST_EMPTY "a" []).path ≠ EMPTY_FILE
     ∧ (fun _ => true : String → Bool) EMPTY_FILE = true)
    ∧ ((worker_thread (fun _ => true) (fun _ => none) "empty a").ret = -1
       ∧ (worker_thread (fun _ => true) (fun _ => none) "empty a").fs (Request.mk REQUEST_EMPTY "a" []).path = none
       ∧ (worker_thread (fun _ => true) (fun _ => none) "empty a").fs EMPTY_FILE
           = some (((fun _ => none : FS) EMPTY_FILE).getD []
               ++ ("empty a".toList ++ ": FILE ALREADY EMPTY\n".toList))
       ∧ Event.truncate (Request.mk REQUEST_EMPTY "a" []).path
           ∉ (worker_thread (fun _ => true) (fun _ => none) "empty a").evs) :=
  ⟨⟨rfl, rfl, rfl, by decide, rfl⟩,
   c9_empty_missing_appends_line (fun _ => true) (fun _ => none) "empty a"
     (Request.mk REQUEST_EMPTY "a" []) rfl rfl rfl (by decide) rfl⟩

/-- C10: whenever the source path handed to `read_file` equals its
destination path, the call returns -1 immediately: no lock event happens
(in particular the destination's lock is never acquired) and the file
system, the destination file included, is returned unchanged. -/
theorem c10_read_into_itself_rejected (ok : String → Bool) (fs : FS)
    (cmdline : List Char) (be : Bool) (p : String) :
    read_file ok fs p p cmdline be = ⟨-1, fs, []⟩ := by
  simp [read_file]

end FileServer
